import Mathlib

/-!
Shallow embedding of the layer/optimizer core of `src/layer.cu` from the
MNIST_CUDA repository.

Device float arrays are modelled as `List ℚ`, an exact-rational idealization
of 32-bit float arithmetic; CUDA kernels touch the first `N` elements of their
argument arrays.  External compute primitives are passed in as explicit
function parameters: `sq` stands for `std::sqrt`, `draw` for the stream of
values produced by `std::uniform_real_distribution` over a seeded
`std::mt19937`, and `softmaxFn` for `cudnnSoftmaxForward`.
-/

/-- Contents of a device buffer of length `L` whose element `i` holds `f i`. -/
def blobOf (L : ℕ) (f : ℕ → ℚ) : List ℚ :=
  (List.range L).map f

/-- cublasSaxpy over the first `n` elements: `y[i] := y[i] + a * x[i]`. -/
def saxpy (n : ℕ) (a : ℚ) (x y : List ℚ) : List ℚ :=
  blobOf y.length (fun i => if i < n then y.getD i 0 + a * x.getD i 0 else y.getD i 0)

/-- cublasSscal over the first `n` elements: `x[i] := a * x[i]`. -/
def scal (n : ℕ) (a : ℚ) (x : List ℚ) : List ℚ :=
  blobOf x.length (fun i => if i < n then a * x.getD i 0 else x.getD i 0)

/-- Body of one iteration of the `adam_update` kernel (src/layer.cu lines 41-48):
`m[i] = m[i]*beta1 + g[i]*(1-beta1)`, `v[i] = v[i]*beta2 + g[i]*g[i]*(1-beta2)`,
then `w[i] = w[i] - lr * (m[i]/(1-beta1^(step+1))) / (sqrt(v[i]/(1-beta2^(step+1))) + eps_hat)`.
Returns `(new m[i], new v[i], new w[i])`; `sq` models `std::sqrt`. -/
def adamStep (sq : ℚ → ℚ) (step : ℕ) (beta1 beta2 eps_hat lr mi vi wi gi : ℚ) : ℚ × ℚ × ℚ :=
  let mi1 := mi * beta1 + gi * (1 - beta1)
  let vi1 := vi * beta2 + gi * gi * (1 - beta2)
  let mtt := mi1 / (1 - beta1 ^ (step + 1))
  let vtt := vi1 / (1 - beta2 ^ (step + 1))
  (mi1, vi1, wi - lr * mtt / (sq vtt + eps_hat))

/-- The `adam_update` CUDA kernel: applies `adamStep` to the first `N` elements of
the arrays `m`, `v`, `w` (gradient `g`); returns the updated `(m, v, w)` buffers. -/
def adam_update (sq : ℚ → ℚ) (N step : ℕ) (m v w g : List ℚ)
    (beta1 beta2 eps_hat lr : ℚ) : List ℚ × List ℚ × List ℚ :=
  ( blobOf m.length (fun i => if i < N then
      (adamStep sq step beta1 beta2 eps_hat lr (m.getD i 0) (v.getD i 0) (w.getD i 0) (g.getD i 0)).1
      else m.getD i 0),
    blobOf v.length (fun i => if i < N then
      (adamStep sq step beta1 beta2 eps_hat lr (m.getD i 0) (v.getD i 0) (w.getD i 0) (g.getD i 0)).2.1
      else v.getD i 0),
    blobOf w.length (fun i => if i < N then
      (adamStep sq step beta1 beta2 eps_hat lr (m.getD i 0) (v.getD i 0) (w.getD i 0) (g.getD i 0)).2.2
      else w.getD i 0) )

/-- Body of one iteration of the `rmsprop_update` kernel (src/layer.cu lines 60-65):
`m[i] = m[i] + (1-decay)*(g[i]*g[i] - m[i])`, then
`w[i] = w[i] - lr * g[i] / sqrt(eps_hat + m[i])` using the updated `m[i]`. -/
def rmspropStep (sq : ℚ → ℚ) (decay eps_hat lr mi wi gi : ℚ) : ℚ × ℚ :=
  let mi1 := mi + (1 - decay) * (gi * gi - mi)
  (mi1, wi - lr * gi / sq (eps_hat + mi1))

/-- The `rmsprop_update` CUDA kernel: applies `rmspropStep` to the first `N`
elements of `m` and `w` (gradient `g`); returns the updated `(m, w)` buffers. -/
def rmsprop_update (sq : ℚ → ℚ) (N : ℕ) (m w g : List ℚ)
    (decay eps_hat lr : ℚ) : List ℚ × List ℚ :=
  ( blobOf m.length (fun i => if i < N then
      (rmspropStep sq decay eps_hat lr (m.getD i 0) (w.getD i 0) (g.getD i 0)).1
      else m.getD i 0),
    blobOf w.length (fun i => if i < N then
      (rmspropStep sq decay eps_hat lr (m.getD i 0) (w.getD i 0) (g.getD i 0)).2
      else w.getD i 0) )

/-- State of a `cudl::Layer` (protected members of the base class plus the
`Linear`-specific size members used by `Linear::forward`).  Blob pointers are
`Option (List ℚ)`: `none` is a null pointer, `some` an allocated buffer.
`output_` records only the batch size the activation buffer is sized for. -/
structure Layer where
  weights_ : Option (List ℚ)
  biases_ : Option (List ℚ)
  weights_m_ : Option (List ℚ)
  weights_v_ : Option (List ℚ)
  biases_m_ : Option (List ℚ)
  biases_v_ : Option (List ℚ)
  grad_weights_ : Option (List ℚ)
  grad_biases_ : Option (List ℚ)
  input_bound_ : Bool
  batch_size_ : ℕ
  input_size_ : ℕ
  output_size_ : ℕ
  output_ : Option ℕ
  load_pretrain_ : Bool
  freeze_ : Bool
deriving DecidableEq

/-- `Layer::update_weights_biases` (src/layer.cu lines 133-174): plain gradient
step via `cublasSaxpy` with `eps = -lr`; each branch is guarded only by the
non-nullness of the parameter blob and its gradient blob. -/
def Layer.update_weights_biases (st : Layer) (lr : ℚ) : Layer :=
  let eps := -1 * lr
  let st1 :=
    if st.weights_.isSome && st.grad_weights_.isSome then
      let w := st.weights_.getD []
      { st with weights_ := some (saxpy w.length eps (st.grad_weights_.getD []) w) }
    else st
  if st1.biases_.isSome && st1.grad_biases_.isSome then
    let b := st1.biases_.getD []
    { st1 with biases_ := some (saxpy b.length eps (st1.grad_biases_.getD []) b) }
  else st1

/-- `Layer::update_weights_biases_with_adam` (src/layer.cu lines 176-216):
launches `adam_update` on the weight arrays, then on the bias arrays. -/
def Layer.update_weights_biases_with_adam (sq : ℚ → ℚ) (st : Layer)
    (lr beta1 beta2 eps_hat : ℚ) (step : ℕ) : Layer :=
  let st1 :=
    if st.weights_.isSome && st.grad_weights_.isSome then
      let w := st.weights_.getD []
      let r := adam_update sq w.length step (st.weights_m_.getD []) (st.weights_v_.getD [])
        w (st.grad_weights_.getD []) beta1 beta2 eps_hat lr
      { st with weights_m_ := some r.1, weights_v_ := some r.2.1, weights_ := some r.2.2 }
    else st
  if st1.biases_.isSome && st1.grad_biases_.isSome then
    let b := st1.biases_.getD []
    let r := adam_update sq b.length step (st1.biases_m_.getD []) (st1.biases_v_.getD [])
      b (st1.grad_biases_.getD []) beta1 beta2 eps_hat lr
    { st1 with biases_m_ := some r.1, biases_v_ := some r.2.1, biases_ := some r.2.2 }
  else st1

/-- `Layer::update_weights_biases_with_rmsprop` (src/layer.cu lines 218-255).
The first branch launches `rmsprop_update` on the weight arrays.  The second
branch is guarded by `biases_`/`grad_biases_` being non-null, but its kernel
launch (source lines 247-248) passes `weights_->len(), weights_m_, weights_,
grad_weights_` — the weight arrays again, not the bias arrays. -/
def Layer.update_weights_biases_with_rmsprop (sq : ℚ → ℚ) (st : Layer)
    (lr decay eps_hat : ℚ) : Layer :=
  let st1 :=
    if st.weights_.isSome && st.grad_weights_.isSome then
      let w := st.weights_.getD []
      let r := rmsprop_update sq w.length (st.weights_m_.getD []) w
        (st.grad_weights_.getD []) decay eps_hat lr
      { st with weights_m_ := some r.1, weights_ := some r.2 }
    else st
  if st1.biases_.isSome && st1.grad_biases_.isSome then
    let w := st1.weights_.getD []
    let r := rmsprop_update sq w.length (st1.weights_m_.getD []) w
      (st1.grad_weights_.getD []) decay eps_hat lr
    { st1 with weights_m_ := some r.1, weights_ := some r.2 }
  else st1

/-- `Layer::init_weight_bias(seed)` (src/layer.cu lines 93-131).  Returns early
if `weights_` or `biases_` is null.  The `std::mt19937` generator is seeded
with `rd()` (a hardware `std::random_device` value, here `rdValue`) when
`seed == 0`, else with `seed`.  `range = sqrt(6.f / input_->size())` and the
weights are drawn from `uniform_real_distribution(-range, range)`; the draw
stream is modelled by `draw seed range i` (the i-th value the seeded
distribution produces).  Biases and all four optimizer accumulators are zeroed. -/
def Layer.init_weight_bias (sq : ℚ → ℚ) (draw : ℕ → ℚ → ℕ → ℚ)
    (st : Layer) (seed rdValue : ℕ) : Layer :=
  if st.weights_.isNone || st.biases_.isNone then st
  else
    let s := if seed = 0 then rdValue else seed
    let range := sq (6 / (st.input_size_ : ℚ))
    { st with
      weights_ := some (blobOf (st.weights_.getD []).length (draw s range)),
      biases_ := some (List.replicate (st.biases_.getD []).length 0),
      weights_m_ := some (List.replicate (st.weights_m_.getD []).length 0),
      weights_v_ := some (List.replicate (st.weights_v_.getD []).length 0),
      biases_m_ := some (List.replicate (st.biases_m_.getD []).length 0),
      biases_v_ := some (List.replicate (st.biases_v_.getD []).length 0) }

/-- Modelled from the spec: `Blob::file_read` (include/blob.h is not under
src/).  Per spec section 4.1 it restores the raw element buffer and "fails
with an IOError if the file is missing, truncated, or size-mismatched".
`file = none` is a missing file; success yields the new buffer contents. -/
def fileRead (blob : Option (List ℚ)) (file : Option (List ℚ)) : Option (List ℚ) :=
  match blob, file with
  | some b, some data => if data.length = b.length then some data else none
  | _, _ => none

/-- `Layer::load_parameter` (src/layer.cu lines 267-282): reads the weights
file, returning -1 on failure; then the bias file, returning -2 on failure;
returns 0 on success.  The returned layer carries whatever was loaded. -/
def Layer.load_parameter (st : Layer) (file_w file_b : Option (List ℚ)) : Int × Layer :=
  let r1 := fileRead st.weights_ file_w
  if r1.isNone then (-1, st)
  else
    let st1 := { st with weights_ := some (r1.getD []) }
    let r2 := fileRead st1.biases_ file_b
    if r2.isNone then (-2, st1)
    else (0, { st1 with biases_ := some (r2.getD []) })

/-- `Layer::save_parameter` (src/layer.cu lines 284-306): writes the weights
file if `weights_` is non-null (returning -1 on write failure), then the bias
file if `biases_` is non-null (returning -2 on failure), else returns 0.
`wOk`/`bOk` model whether `Blob::file_write` succeeds. -/
def Layer.save_parameter (st : Layer) (wOk bOk : Bool) : Int :=
  if st.weights_.isSome && !wOk then -1
  else if st.biases_.isSome && !bOk then -2
  else 0

/-- Result of a forward call: a new layer state, or `exit(code)` — the fatal,
process-terminating path taken on a pretrained-load failure. -/
inductive FwdResult where
  | ok (st : Layer)
  | exitFail (code : Int)
deriving DecidableEq

/-- The state carried by an `ok` result, with a default for the fatal case. -/
def FwdResult.stateD (r : FwdResult) (d : Layer) : Layer :=
  match r with
  | .ok st => st
  | .exitFail _ => d

/-- `Linear::forward` (src/layer.cu lines 330-374), its state-changing prefix.
If `weights_` is null, the parameter and accumulator blobs are allocated
(sizes `input_size_ * output_size_` and `output_size_`; freshly allocated
contents are unspecified and modelled as zeros — no claim depends on them).
If `input_` is null or the batch size changed, the output buffer is resized
and the parameters are loaded (`load_pretrain_ && !freeze_`, `exit(-1)` on
failure), freshly initialized (`!freeze_`, with the default seed 0 so the
generator is seeded from `rdValue`), or left untouched (frozen).
`n, c, h, w` are the input blob's dimensions. -/
def Linear.forward (sq : ℚ → ℚ) (draw : ℕ → ℚ → ℕ → ℚ) (st : Layer)
    (n c h w rdValue : ℕ) (file_w file_b : Option (List ℚ)) : FwdResult :=
  let inSize := c * h * w
  let st1 :=
    if st.weights_.isNone then
      { st with
        input_size_ := inSize,
        weights_ := some (List.replicate (inSize * st.output_size_) 0),
        biases_ := some (List.replicate st.output_size_ 0),
        weights_m_ := some (List.replicate (inSize * st.output_size_) 0),
        weights_v_ := some (List.replicate (inSize * st.output_size_) 0),
        biases_m_ := some (List.replicate st.output_size_ 0),
        biases_v_ := some (List.replicate st.output_size_ 0) }
    else st
  if st1.input_bound_ = false ∨ st1.batch_size_ ≠ n then
    let st2 := { st1 with input_bound_ := true, batch_size_ := n, output_ := some n }
    if st2.load_pretrain_ && !st2.freeze_ then
      let r := Layer.load_parameter st2 file_w file_b
      if r.1 = 0 then .ok r.2 else .exitFail (-1)
    else if !st2.freeze_ then
      .ok (Layer.init_weight_bias sq draw st2 0 rdValue)
    else
      .ok st2
  else
    .ok st1

/-- State of a `cudl::Softmax` layer: the members its forward/backward touch. -/
structure SoftmaxState where
  input_bound_ : Bool
  batch_size_ : ℕ
  output_ : List ℚ
deriving DecidableEq

/-- `Softmax::forward` (src/layer.cu lines 543-572): resizes buffers on first
call or batch-size change, then stores `cudnnSoftmaxForward(input)` (modelled
by the external primitive `softmaxFn`) into `output_`. -/
def Softmax.forward (softmaxFn : List ℚ → List ℚ) (st : SoftmaxState)
    (input : List ℚ) (n : ℕ) : SoftmaxState :=
  let st1 :=
    if st.input_bound_ = false ∨ st.batch_size_ ≠ n then
      { st with input_bound_ := true, batch_size_ := n }
    else st
  { st1 with output_ := softmaxFn input }

/-- `Softmax::backward(target)` (src/layer.cu lines 574-608): copies `output_`
into the gradient buffer, subtracts `target` via `cublasSaxpy` with alpha -1
over `target->len()` elements, then scales the whole gradient
(`n*c*h*w = target->len()` elements) by `1 / target->n()`; `tn` is
`target->n()`. -/
def Softmax.backward (st : SoftmaxState) (target : List ℚ) (tn : ℕ) : List ℚ :=
  scal target.length (1 / (tn : ℚ)) (saxpy target.length (-1) target st.output_)

/-- The inner loop of `Softmax::get_accuracy` written over an access function:
`idx = 0; for i in 1..9: if f i > f idx then idx = i`. -/
def argmax10 (f : ℕ → ℚ) : ℕ :=
  (List.range' 1 9).foldl (fun idx i => if f idx < f i then i else idx) 0

/-- The fused per-batch-element loop of `Softmax::get_accuracy`
(src/layer.cu lines 631-639): starting from `idx_output = idx_target = 0`,
for `i` in 1..9 replace either index when the strictly larger entry
`h[b*output_size+i] > h[b*output_size+idx]` is found.  Returns
`(idx_output, idx_target)`. -/
def accuracyRow (output target : List ℚ) (output_size b : ℕ) : ℕ × ℕ :=
  (List.range' 1 9).foldl
    (fun q i =>
      ( if output.getD (b * output_size + q.1) 0 < output.getD (b * output_size + i) 0
          then i else q.1,
        if target.getD (b * output_size + q.2) 0 < target.getD (b * output_size + i) 0
          then i else q.2))
    (0, 0)

/-- `Softmax::get_accuracy(target)` (src/layer.cu lines 614-646): for each
batch element `b`, compute in one fused loop the index of the largest of the
first 10 entries of row `b` (stride `output_size`) of both prediction and
target; increment `hit_count` when the two indices agree. -/
def Softmax.get_accuracy (output target : List ℚ) (batch_size output_size : ℕ) : ℕ :=
  (List.range batch_size).foldl
    (fun hit_count b =>
      if (accuracyRow output target output_size b).1 = (accuracyRow output target output_size b).2
        then hit_count + 1 else hit_count)
    0

/-! ### Concrete layer states used in counterexamples and witnesses -/

/-- A freshly constructed unfrozen `Linear("linear", 1)` layer before its
first forward call: all blobs null, no input bound. -/
def freshLinear : Layer :=
  { weights_ := none, biases_ := none,
    weights_m_ := none, weights_v_ := none, biases_m_ := none, biases_v_ := none,
    grad_weights_ := none, grad_biases_ := none,
    input_bound_ := false, batch_size_ := 0, input_size_ := 0, output_size_ := 1,
    output_ := none, load_pretrain_ := false, freeze_ := false }

/-- A draw stream that returns the generator's seed, exposing which seed the
`mt19937` generator was constructed with. -/
def seedDraw : ℕ → ℚ → ℕ → ℚ := fun s _ _ => (s : ℚ)

/-- A frozen layer with externally populated parameters and computed
gradients. -/
def frozenLayer : Layer :=
  { weights_ := some [1], biases_ := some [1],
    weights_m_ := some [0], weights_v_ := some [0], biases_m_ := some [0], biases_v_ := some [0],
    grad_weights_ := some [1], grad_biases_ := some [1],
    input_bound_ := true, batch_size_ := 1, input_size_ := 1, output_size_ := 1,
    output_ := some 1, load_pretrain_ := false, freeze_ := true }

/-- An unfrozen layer with weights [4], biases [2], zero accumulators and
gradients [2] (weights) and [1] (biases). -/
def rmspropBugLayer : Layer :=
  { weights_ := some [4], biases_ := some [2],
    weights_m_ := some [0], weights_v_ := some [0], biases_m_ := some [0], biases_v_ := some [0],
    grad_weights_ := some [2], grad_biases_ := some [1],
    input_bound_ := true, batch_size_ := 1, input_size_ := 1, output_size_ := 1,
    output_ := some 1, load_pretrain_ := false, freeze_ := false }

/-- A layer with a single allocated weight and bias, used to exhibit the
nondeterminism of seed-0 initialization. -/
def seedLayer : Layer :=
  { weights_ := some [0], biases_ := some [0],
    weights_m_ := some [0], weights_v_ := some [0], biases_m_ := some [0], biases_v_ := some [0],
    grad_weights_ := none, grad_biases_ := none,
    input_bound_ := true, batch_size_ := 1, input_size_ := 1, output_size_ := 1,
    output_ := some 1, load_pretrain_ := false, freeze_ := false }

/-- A freshly constructed `Linear` layer configured to load pretrained
parameters during materialization. -/
def pretrainLinear : Layer :=
  { weights_ := none, biases_ := none,
    weights_m_ := none, weights_v_ := none, biases_m_ := none, biases_v_ := none,
    grad_weights_ := none, grad_biases_ := none,
    input_bound_ := false, batch_size_ := 0, input_size_ := 0, output_size_ := 1,
    output_ := none, load_pretrain_ := true, freeze_ := false }

/-! ### Helper lemmas about buffers -/

theorem blobOf_getD (L : ℕ) (f : ℕ → ℚ) (i : ℕ) (d : ℚ) :
    (blobOf L f).getD i d = if i < L then f i else d := by
  by_cases h : i < L
  · rw [if_pos h, List.getD_eq_getElem?_getD, blobOf, List.getElem?_map,
      List.getElem?_range h]
    rfl
  · rw [if_neg h, List.getD_eq_getElem?_getD, List.getElem?_eq_none]
    · rfl
    · simpa [blobOf] using Nat.le_of_not_lt h

theorem blobOf_length (L : ℕ) (f : ℕ → ℚ) : (blobOf L f).length = L := by
  simp [blobOf]

theorem blobOf_getD_self (l : List ℚ) : blobOf l.length (fun i => l.getD i 0) = l := by
  apply List.ext_getElem (by simp [blobOf])
  intro i h1 h2
  simp [blobOf, List.getD_eq_getElem?_getD, List.getElem?_eq_getElem h2]

theorem blobOf_congr (L : ℕ) (f g : ℕ → ℚ) (h : ∀ i, i < L → f i = g i) :
    blobOf L f = blobOf L g := by
  apply List.ext_getElem (by simp [blobOf])
  intro i h1 h2
  simp only [blobOf, List.getElem_map, List.getElem_range]
  exact h i (by simpa [blobOf] using h1)

theorem mem_blobOf {L : ℕ} {f : ℕ → ℚ} {x : ℚ} (hx : x ∈ blobOf L f) :
    ∃ i, i < L ∧ x = f i := by
  simp only [blobOf, List.mem_map, List.mem_range] at hx
  obtain ⟨i, hi, rfl⟩ := hx
  exact ⟨i, hi, rfl⟩

/-! ### C1: Softmax backward is the fused softmax plus cross-entropy gradient -/

/-- C1: for a batch of logits and a target tensor of the same shape,
`Softmax::backward(target)` after `Softmax::forward(logits)` returns a
gradient equal elementwise to `(softmax(logits) - target) / batch_size`,
where `softmax(logits)` is the output stored by the preceding forward call and
`batch_size` is the target's N dimension `tn`. -/
theorem softmax_backward_fused_gradient (softmaxFn : List ℚ → List ℚ)
    (st : SoftmaxState) (logits target : List ℚ) (n tn i : ℕ)
    (hlen : (softmaxFn logits).length = target.length) (hi : i < target.length) :
    (Softmax.backward (Softmax.forward softmaxFn st logits n) target tn).getD i 0
      = ((softmaxFn logits).getD i 0 - target.getD i 0) / (tn : ℚ) := by
  have hout : (Softmax.forward softmaxFn st logits n).output_ = softmaxFn logits := by
    unfold Softmax.forward
    by_cases h : st.input_bound_ = false ∨ st.batch_size_ ≠ n <;> simp [h]
  rw [Softmax.backward, hout, scal, saxpy, hlen, blobOf_length, blobOf_getD,
    if_pos hi, if_pos hi, blobOf_getD, if_pos hi, if_pos hi, one_div, inv_mul_eq_div]
  congr 1
  ring

/-! ### C2: the Adam update rule, elementwise -/

/-- C2: one invocation of the `adam_update` kernel performs, at each index
`i < N` independently, exactly `m[i] := beta1*m[i] + (1-beta1)*g[i]`,
`v[i] := beta2*v[i] + (1-beta2)*g[i]^2`, and then
`w[i] := w[i] - lr * (m[i]/(1-beta1^(step+1))) / (sqrt(v[i]/(1-beta2^(step+1))) + eps)`
with the already-updated `m[i]`, `v[i]`. -/
theorem adam_update_elementwise (sq : ℚ → ℚ) (N step i : ℕ) (m v w g : List ℚ)
    (beta1 beta2 eps_hat lr : ℚ)
    (hiN : i < N) (him : i < m.length) (hiv : i < v.length) (hiw : i < w.length) :
    (adam_update sq N step m v w g beta1 beta2 eps_hat lr).1.getD i 0
        = beta1 * m.getD i 0 + (1 - beta1) * g.getD i 0
    ∧ (adam_update sq N step m v w g beta1 beta2 eps_hat lr).2.1.getD i 0
        = beta2 * v.getD i 0 + (1 - beta2) * (g.getD i 0 * g.getD i 0)
    ∧ (adam_update sq N step m v w g beta1 beta2 eps_hat lr).2.2.getD i 0
        = w.getD i 0 -
            lr * ((beta1 * m.getD i 0 + (1 - beta1) * g.getD i 0) / (1 - beta1 ^ (step + 1)))
              / (sq ((beta2 * v.getD i 0 + (1 - beta2) * (g.getD i 0 * g.getD i 0))
                  / (1 - beta2 ^ (step + 1))) + eps_hat) := by
  have hm : m.getD i 0 * beta1 + g.getD i 0 * (1 - beta1)
      = beta1 * m.getD i 0 + (1 - beta1) * g.getD i 0 := by ring
  have hv : v.getD i 0 * beta2 + g.getD i 0 * g.getD i 0 * (1 - beta2)
      = beta2 * v.getD i 0 + (1 - beta2) * (g.getD i 0 * g.getD i 0) := by ring
  refine ⟨?_, ?_, ?_⟩
  · show (blobOf m.length _).getD i 0 = _
    rw [blobOf_getD, if_pos him, if_pos hiN]
    simp only [adamStep]
    exact hm
  · show (blobOf v.length _).getD i 0 = _
    rw [blobOf_getD, if_pos hiv, if_pos hiN]
    simp only [adamStep]
    exact hv
  · show (blobOf w.length _).getD i 0 = _
    rw [blobOf_getD, if_pos hiw, if_pos hiN]
    simp only [adamStep]
    rw [hm, hv]

/-! ### C9: RMSProp with decay = 1 -/

/-- C9: one `rmsprop_update` invocation with `decay = 1` leaves the moving
average unchanged (`m_new = m_prev` elementwise, hence as a whole buffer) and
updates `w[i] := w[i] - lr*g[i]/sqrt(eps + m_prev[i])` for every `i < N`. -/
theorem rmsprop_decay_one_degenerates (sq : ℚ → ℚ) (N : ℕ) (m w g : List ℚ)
    (eps_hat lr : ℚ) :
    (rmsprop_update sq N m w g 1 eps_hat lr).1 = m
    ∧ ∀ i : ℕ, i < N → i < w.length →
        (rmsprop_update sq N m w g 1 eps_hat lr).2.getD i 0
          = w.getD i 0 - lr * g.getD i 0 / sq (eps_hat + m.getD i 0) := by
  constructor
  · show blobOf m.length _ = m
    have h : ∀ j, j < m.length →
        (if j < N then
          (rmspropStep sq 1 eps_hat lr (m.getD j 0) (w.getD j 0) (g.getD j 0)).1
          else m.getD j 0) = m.getD j 0 := by
      intro j _
      by_cases hjN : j < N
      · rw [if_pos hjN]
        simp only [rmspropStep]
        ring
      · rw [if_neg hjN]
    rw [blobOf_congr _ _ _ h, blobOf_getD_self]
  · intro i hiN hiw
    show (blobOf w.length _).getD i 0 = _
    rw [blobOf_getD, if_pos hiw, if_pos hiN]
    simp only [rmspropStep]
    have h1 : m.getD i 0 + (1 - 1) * (g.getD i 0 * g.getD i 0 - m.getD i 0)
        = m.getD i 0 := by ring
    rw [h1]

/-! ### C3: lazy materialization across forward calls -/

/-- C3 counterexample: starting from a fresh unfrozen `Linear` layer, a first
forward call at batch size 1 (hardware entropy 5) initializes the weights to
[5]; a second forward call differing only in batch size (2, hardware entropy
9) re-runs `init_weight_bias` and overwrites the weights to [9].  The claim
says a batch-size-only change must not re-initialize or overwrite parameters. -/
theorem linear_forward_batch_change_overwrites :
    ((Linear.forward (fun x => x) seedDraw freshLinear 1 1 1 1 5 none none).stateD
        freshLinear).weights_ = some [5]
    ∧ ((Linear.forward (fun x => x) seedDraw
          ((Linear.forward (fun x => x) seedDraw freshLinear 1 1 1 1 5 none none).stateD
            freshLinear)
          2 1 1 1 9 none none).stateD freshLinear).weights_ = some [9] := by
  norm_num [Linear.forward, Layer.init_weight_bias, FwdResult.stateD, freshLinear,
    seedDraw, blobOf, show List.range 1 = [0] from rfl]

/-- C3 (amended): parameter allocation happens only when the weight blob is
null, and a repeated forward call at a constant batch size leaves the whole
layer state — parameters included — unchanged; but a forward call whose input
differs only in batch size re-runs parameter initialization on an unfrozen
layer without pretrained-load, overwriting the weights with fresh draws from
the generator (seeded from the hardware source `rdValue`). -/
theorem linear_forward_materialization (sq : ℚ → ℚ) (draw : ℕ → ℚ → ℕ → ℚ)
    (st : Layer) (n c h w rdValue : ℕ) :
    (st.input_bound_ = true → st.batch_size_ = n → st.weights_.isSome = true →
      Linear.forward sq draw st n c h w rdValue none none = .ok st)
    ∧ (∀ wl bl : List ℚ, st.weights_ = some wl → st.biases_ = some bl →
        st.batch_size_ ≠ n → st.freeze_ = false → st.load_pretrain_ = false →
        ((Linear.forward sq draw st n c h w rdValue none none).stateD st).weights_
          = some (blobOf wl.length (draw rdValue (sq (6 / (st.input_size_ : ℚ)))))) := by
  constructor
  · intro hib hbs hw
    obtain ⟨wl, hwl⟩ := Option.isSome_iff_exists.mp hw
    simp [Linear.forward, hwl, hib, hbs]
  · intro wl bl hwl hbl hbs hfz hlp
    simp [Linear.forward, Layer.init_weight_bias, FwdResult.stateD, hwl, hbl, hbs, hfz, hlp]

/-! ### C5: the freeze flag -/

/-- C5 counterexample: on a frozen layer with computed gradients, the plain
update `Layer::update_weights_biases` still modifies the weights (1 becomes 0
at lr = 1) and biases; none of the update methods consult the freeze flag. -/
theorem frozen_update_changes_weights :
    frozenLayer.freeze_ = true
    ∧ (Layer.update_weights_biases frozenLayer 1).weights_ = some [0]
    ∧ (Layer.update_weights_biases frozenLayer 1).weights_ ≠ frozenLayer.weights_ := by
  refine ⟨rfl, ?_, ?_⟩ <;>
    norm_num [Layer.update_weights_biases, frozenLayer, saxpy, blobOf,
      show List.range 1 = [0] from rfl]

/-- C5 (amended): for a frozen layer, forward-triggered materialization skips
the parameter load/initialization step, leaving already-populated weights and
biases unchanged; the update methods, however, do not consult the freeze flag
(see the counterexample). -/
theorem frozen_forward_preserves_parameters (sq : ℚ → ℚ) (draw : ℕ → ℚ → ℕ → ℚ)
    (st : Layer) (n c h w rdValue : ℕ) (file_w file_b : Option (List ℚ))
    (hf : st.freeze_ = true) (hw : st.weights_.isSome = true) :
    ((Linear.forward sq draw st n c h w rdValue file_w file_b).stateD st).weights_
        = st.weights_
    ∧ ((Linear.forward sq draw st n c h w rdValue file_w file_b).stateD st).biases_
        = st.biases_ := by
  obtain ⟨wl, hwl⟩ := Option.isSome_iff_exists.mp hw
  by_cases hb : st.input_bound_ = false ∨ st.batch_size_ ≠ n <;>
    simp [Linear.forward, FwdResult.stateD, hwl, hf, hb]

/-! ### C6: fresh parameter initialization -/

/-- C6: for an unfrozen layer without pretrained-load, the fresh parameter
initialization performed during forward materialization writes every weight
element from the bounded uniform draw stream whose range is `sqrt(6/fan_in)`
(every written weight lies in `[-range, range]`, `fan_in = c*h*w` being the
input feature count), every bias element to 0, and every element of the four
optimizer accumulators to 0. -/
theorem linear_fresh_initialization (sq : ℚ → ℚ) (draw : ℕ → ℚ → ℕ → ℚ)
    (st : Layer) (n c h w rdValue : ℕ)
    (hw : st.weights_ = none) (hib : st.input_bound_ = false)
    (hfz : st.freeze_ = false) (hlp : st.load_pretrain_ = false)
    (hdraw : ∀ i : ℕ,
      -(sq (6 / ((c * h * w : ℕ) : ℚ)))
          ≤ draw rdValue (sq (6 / ((c * h * w : ℕ) : ℚ))) i
        ∧ draw rdValue (sq (6 / ((c * h * w : ℕ) : ℚ))) i
          ≤ sq (6 / ((c * h * w : ℕ) : ℚ))) :
    ((Linear.forward sq draw st n c h w rdValue none none).stateD st).weights_
        = some (blobOf (c * h * w * st.output_size_)
            (draw rdValue (sq (6 / ((c * h * w : ℕ) : ℚ)))))
    ∧ (∀ x ∈ blobOf (c * h * w * st.output_size_)
          (draw rdValue (sq (6 / ((c * h * w : ℕ) : ℚ)))),
        -(sq (6 / ((c * h * w : ℕ) : ℚ))) ≤ x ∧ x ≤ sq (6 / ((c * h * w : ℕ) : ℚ)))
    ∧ ((Linear.forward sq draw st n c h w rdValue none none).stateD st).biases_
        = some (List.replicate st.output_size_ 0)
    ∧ ((Linear.forward sq draw st n c h w rdValue none none).stateD st).weights_m_
        = some (List.replicate (c * h * w * st.output_size_) 0)
    ∧ ((Linear.forward sq draw st n c h w rdValue none none).stateD st).weights_v_
        = some (List.replicate (c * h * w * st.output_size_) 0)
    ∧ ((Linear.forward sq draw st n c h w rdValue none none).stateD st).biases_m_
        = some (List.replicate st.output_size_ 0)
    ∧ ((Linear.forward sq draw st n c h w rdValue none none).stateD st).biases_v_
        = some (List.replicate st.output_size_ 0) := by
  have hmem : ∀ x ∈ blobOf (c * h * w * st.output_size_)
      (draw rdValue (sq (6 / ((c * h * w : ℕ) : ℚ)))),
      -(sq (6 / ((c * h * w : ℕ) : ℚ))) ≤ x ∧ x ≤ sq (6 / ((c * h * w : ℕ) : ℚ)) := by
    intro x hx
    obtain ⟨i, _, rfl⟩ := mem_blobOf hx
    exact hdraw i
  refine ⟨?_, hmem, ?_, ?_, ?_, ?_, ?_⟩ <;>
    simp [Linear.forward, Layer.init_weight_bias, FwdResult.stateD, hw, hib, hfz, hlp]

/-! ### C8: fatal pretrained-load failure versus recoverable explicit IO -/

/-- C8: when pretrained-load is set and the layer unfrozen, a parameter-load
failure during lazy materialization inside forward is fatal (the `exit(-1)`
path), whereas a failing explicit `save_parameter` or `load_parameter` call
merely returns a nonzero status to the caller. -/
theorem pretrain_load_failure_fatal (sq : ℚ → ℚ) (draw : ℕ → ℚ → ℕ → ℚ)
    (st : Layer) (n c h w rdValue : ℕ)
    (hlp : st.load_pretrain_ = true) (hfz : st.freeze_ = false)
    (hib : st.input_bound_ = false) :
    Linear.forward sq draw st n c h w rdValue none none = .exitFail (-1)
    ∧ (∀ st2 : Layer, st2.weights_.isSome = true →
        Layer.save_parameter st2 false true = -1)
    ∧ (∀ st3 : Layer, Layer.load_parameter st3 none none = (-1, st3)) := by
  have hload : ∀ st3 : Layer, Layer.load_parameter st3 none none = (-1, st3) := by
    intro st3
    have h : fileRead st3.weights_ none = none := by
      cases st3.weights_ <;> rfl
    simp [Layer.load_parameter, h]
  refine ⟨?_, ?_, hload⟩
  · by_cases hwn : st.weights_ = none
    · simp [Linear.forward, hwn, hib, hlp, hfz, hload]
    · obtain ⟨wl, hwl⟩ := Option.ne_none_iff_exists'.mp hwn
      simp [Linear.forward, hwl, hib, hlp, hfz, hload]
  · intro st2 hw2
    simp [Layer.save_parameter, hw2]

/-! ### C4: the RMSProp layer update never touches the biases -/

/-- C4 (code-bug evaluation): at lr = 1, decay = 0, eps = 0 on a layer with
weights [4], biases [2], zero accumulators, weight gradient [2] and bias
gradient [1], `Layer::update_weights_biases_with_rmsprop` leaves the biases
and the bias accumulator untouched and instead applies the RMSProp rule to
the weights twice (4 becomes 7/2 after the first kernel launch and 3 after
the second); the claimed behavior is a single weight update (7/2) and a bias
update of [2] to [1]. -/
theorem rmsprop_layer_update_bias_bug :
    (Layer.update_weights_biases_with_rmsprop (fun x => x) rmspropBugLayer 1 0 0).biases_
        = some [2]
    ∧ (Layer.update_weights_biases_with_rmsprop (fun x => x) rmspropBugLayer 1 0 0).biases_m_
        = some [0]
    ∧ (Layer.update_weights_biases_with_rmsprop (fun x => x) rmspropBugLayer 1 0 0).weights_
        = some [3]
    ∧ (Layer.update_weights_biases_with_rmsprop (fun x => x) rmspropBugLayer 1 0 0).weights_m_
        = some [4] := by
  refine ⟨?_, ?_, ?_, ?_⟩ <;>
    norm_num [Layer.update_weights_biases_with_rmsprop, rmsprop_update, rmspropStep,
      rmspropBugLayer, blobOf, show List.range 1 = [0] from rfl]

/-! ### C7: accuracy is the count of matching argmax indices -/

theorem foldl_pair {α β γ : Type} (f : α → γ → α) (g : β → γ → β)
    (l : List γ) (a : α) (b : β) :
    l.foldl (fun p c => (f p.1 c, g p.2 c)) (a, b) = (l.foldl f a, l.foldl g b) := by
  induction l generalizing a b with
  | nil => rfl
  | cons c t ih => simp only [List.foldl_cons]; exact ih (f a c) (g b c)

theorem foldl_count {γ : Type} (q : γ → Prop) [DecidablePred q] (l : List γ) (k : ℕ) :
    l.foldl (fun n c => if q c then n + 1 else n) k
      = k + l.countP (fun c => decide (q c)) := by
  induction l generalizing k with
  | nil => simp
  | cons c t ih =>
    by_cases hq : q c
    · simp [List.countP_cons, hq, ih]
      omega
    · simp [List.countP_cons, hq, ih]

theorem foldl_argmax_le (f : ℕ → ℚ) (l : List ℕ) (a : ℕ) :
    f a ≤ f (l.foldl (fun idx i => if f idx < f i then i else idx) a)
    ∧ ∀ j ∈ l, f j ≤ f (l.foldl (fun idx i => if f idx < f i then i else idx) a) := by
  induction l generalizing a with
  | nil => exact ⟨le_refl _, by simp⟩
  | cons c t ih =>
    constructor
    · simp only [List.foldl_cons]
      by_cases h : f a < f c
      · rw [if_pos h]
        exact le_trans (le_of_lt h) (ih c).1
      · rw [if_neg h]
        exact (ih a).1
    · intro j hj
      simp only [List.foldl_cons]
      rcases List.mem_cons.mp hj with rfl | hjt
      · by_cases h : f a < f j
        · rw [if_pos h]
          exact (ih j).1
        · rw [if_neg h]
          exact le_trans (le_of_not_lt h) (ih a).1
      · by_cases h : f a < f c
        · rw [if_pos h]
          exact (ih c).2 j hjt
        · rw [if_neg h]
          exact (ih a).2 j hjt

theorem argmax10_le (f : ℕ → ℚ) (j : ℕ) (hj : j < 10) : f j ≤ f (argmax10 f) := by
  have h := foldl_argmax_le f (List.range' 1 9) 0
  interval_cases j
  · exact h.1
  all_goals exact h.2 _ (by decide)

theorem accuracyRow_eq (output target : List ℚ) (S b : ℕ) :
    accuracyRow output target S b
      = (argmax10 (fun i => output.getD (b * S + i) 0),
         argmax10 (fun i => target.getD (b * S + i) 0)) := by
  rw [accuracyRow, argmax10, argmax10]
  exact foldl_pair
    (fun idx i => if output.getD (b * S + idx) 0 < output.getD (b * S + i) 0 then i else idx)
    (fun idx i => if target.getD (b * S + idx) 0 < target.getD (b * S + i) 0 then i else idx)
    (List.range' 1 9) 0 0

/-- C7: `Softmax::get_accuracy(target)` returns the integer number of batch
elements whose argmax over the fixed 10-way class axis agrees between
prediction and target — a hit count, not a rate; and the index computed per
row is a genuine argmax: no entry among the 10 classes of the row exceeds the
entry at the returned index, for the prediction and the target alike. -/
theorem get_accuracy_argmax_hit_count (output target : List ℚ) (B S : ℕ) :
    Softmax.get_accuracy output target B S
      = (List.range B).countP (fun b =>
          decide (argmax10 (fun i => output.getD (b * S + i) 0)
            = argmax10 (fun i => target.getD (b * S + i) 0)))
    ∧ (∀ b j : ℕ, j < 10 →
        output.getD (b * S + j) 0
          ≤ output.getD (b * S + argmax10 (fun i => output.getD (b * S + i) 0)) 0)
    ∧ (∀ b j : ℕ, j < 10 →
        target.getD (b * S + j) 0
          ≤ target.getD (b * S + argmax10 (fun i => target.getD (b * S + i) 0)) 0) := by
  refine ⟨?_, ?_, ?_⟩
  · have h := foldl_count
      (fun b => (accuracyRow output target S b).1 = (accuracyRow output target S b).2)
      (List.range B) 0
    exact h.trans (by simp [accuracyRow_eq])
  · intro b j hj
    exact argmax10_le (fun i => output.getD (b * S + i) 0) j hj
  · intro b j hj
    exact argmax10_le (fun i => target.getD (b * S + i) 0) j hj

/-! ### C10: seeded initialization is reproducible; seed 0 is not -/

/-- C10: two `init_weight_bias` invocations with the same nonzero seed on
layers with identical weight-buffer lengths and identical input feature size
write identical weight values, whatever the hardware `random_device` returned
(`rd1`, `rd2`); with seed 0 the generator is seeded from the hardware source,
and two runs with different hardware values can produce different weights. -/
theorem init_weight_bias_seed_determinism (sq : ℚ → ℚ) (draw : ℕ → ℚ → ℕ → ℚ)
    (stA stB : Layer) (seed rd1 rd2 : ℕ) (wlA wlB blA blB : List ℚ)
    (hs : seed ≠ 0)
    (hwA : stA.weights_ = some wlA) (hwB : stB.weights_ = some wlB)
    (hbA : stA.biases_ = some blA) (hbB : stB.biases_ = some blB)
    (hlen : wlA.length = wlB.length) (hin : stA.input_size_ = stB.input_size_) :
    (Layer.init_weight_bias sq draw stA seed rd1).weights_
      = (Layer.init_weight_bias sq draw stB seed rd2).weights_
    ∧ ∃ r1 r2 : ℕ,
        (Layer.init_weight_bias sq seedDraw seedLayer 0 r1).weights_
          ≠ (Layer.init_weight_bias sq seedDraw seedLayer 0 r2).weights_ := by
  constructor
  · simp [Layer.init_weight_bias, hwA, hwB, hbA, hbB, hlen, hin, hs]
  · refine ⟨1, 2, ?_⟩
    norm_num [Layer.init_weight_bias, seedLayer, seedDraw, blobOf,
      show List.range 1 = [0] from rfl]

/-! ### Witnesses: each hypothesis-bearing claim theorem applied at a concrete input -/

theorem softmax_backward_fused_gradient_witness :
    (Softmax.backward (Softmax.forward (fun l => l) ⟨false, 0, []⟩ [1, 2] 2) [0, 1] 2).getD 0 0
      = (((fun l : List ℚ => l) [1, 2]).getD 0 0 - ([0, 1] : List ℚ).getD 0 0) / ((2 : ℕ) : ℚ) :=
  softmax_backward_fused_gradient (fun l => l) ⟨false, 0, []⟩ [1, 2] [0, 1] 2 2 0
    rfl (by decide)

theorem adam_update_elementwise_witness :
    (adam_update (fun x => x) 1 0 [1] [1] [1] [1] 0 0 0 1).1.getD 0 0
      = 0 * ([1] : List ℚ).getD 0 0 + (1 - 0) * ([1] : List ℚ).getD 0 0 :=
  (adam_update_elementwise (fun x => x) 1 0 0 [1] [1] [1] [1] 0 0 0 1
    (by decide) (by decide) (by decide) (by decide)).1

theorem linear_forward_materialization_witness :
    Linear.forward (fun x => x) seedDraw rmspropBugLayer 1 1 1 1 0 none none
        = .ok rmspropBugLayer
    ∧ ((Linear.forward (fun x => x) seedDraw rmspropBugLayer 2 1 1 1 3 none none).stateD
          rmspropBugLayer).weights_
        = some (blobOf ([(4 : ℚ)] : List ℚ).length
            (seedDraw 3 ((fun x : ℚ => x) (6 / (rmspropBugLayer.input_size_ : ℚ))))) :=
  ⟨(linear_forward_materialization (fun x => x) seedDraw rmspropBugLayer 1 1 1 1 0).1
      rfl rfl rfl,
   (linear_forward_materialization (fun x => x) seedDraw rmspropBugLayer 2 1 1 1 3).2
      [4] [2] rfl rfl (by decide) rfl rfl⟩

theorem frozen_forward_preserves_parameters_witness :
    ((Linear.forward (fun x => x) seedDraw frozenLayer 2 1 1 1 0 none none).stateD
        frozenLayer).weights_ = frozenLayer.weights_
    ∧ ((Linear.forward (fun x => x) seedDraw frozenLayer 2 1 1 1 0 none none).stateD
        frozenLayer).biases_ = frozenLayer.biases_ :=
  frozen_forward_preserves_parameters (fun x => x) seedDraw frozenLayer 2 1 1 1 0
    none none rfl rfl

theorem linear_fresh_initialization_witness :
    ((Linear.forward (fun x => x) (fun _ _ _ => (0 : ℚ)) freshLinear 1 1 1 1 0 none
        none).stateD freshLinear).weights_
      = some (blobOf (1 * 1 * 1 * freshLinear.output_size_)
          ((fun _ _ _ => (0 : ℚ)) 0 ((fun x : ℚ => x) (6 / ((1 * 1 * 1 : ℕ) : ℚ))))) :=
  (linear_fresh_initialization (fun x => x) (fun _ _ _ => (0 : ℚ)) freshLinear 1 1 1 1 0
    rfl rfl rfl rfl (by intro i; norm_num)).1

theorem pretrain_load_failure_fatal_witness :
    Linear.forward (fun x => x) seedDraw pretrainLinear 1 1 1 1 0 none none
        = .exitFail (-1)
    ∧ Layer.save_parameter frozenLayer false true = -1 :=
  ⟨(pretrain_load_failure_fatal (fun x => x) seedDraw pretrainLinear 1 1 1 1 0
      rfl rfl rfl).1,
   (pretrain_load_failure_fatal (fun x => x) seedDraw pretrainLinear 1 1 1 1 0
      rfl rfl rfl).2.1 frozenLayer rfl⟩

theorem get_accuracy_argmax_hit_count_witness :
    Softmax.get_accuracy [3, 1] [1, 0] 1 2
      = (List.range 1).countP (fun b =>
          decide (argmax10 (fun i => ([3, 1] : List ℚ).getD (b * 2 + i) 0)
            = argmax10 (fun i => ([1, 0] : List ℚ).getD (b * 2 + i) 0)))
    ∧ ([3, 1] : List ℚ).getD (0 * 2 + 3) 0
        ≤ ([3, 1] : List ℚ).getD
            (0 * 2 + argmax10 (fun i => ([3, 1] : List ℚ).getD (0 * 2 + i) 0)) 0 :=
  ⟨(get_accuracy_argmax_hit_count [3, 1] [1, 0] 1 2).1,
   (get_accuracy_argmax_hit_count [3, 1] [1, 0] 1 2).2.1 0 3 (by decide)⟩

theorem rmsprop_decay_one_degenerates_witness :
    (rmsprop_update (fun x => x) 1 [2] [5] [3] 1 0 1).1 = [2]
    ∧ (rmsprop_update (fun x => x) 1 [2] [5] [3] 1 0 1).2.getD 0 0
        = ([5] : List ℚ).getD 0 0
            - 1 * ([3] : List ℚ).getD 0 0 / (fun x : ℚ => x) (0 + ([2] : List ℚ).getD 0 0) :=
  ⟨(rmsprop_decay_one_degenerates (fun x => x) 1 [2] [5] [3] 0 1).1,
   (rmsprop_decay_one_degenerates (fun x => x) 1 [2] [5] [3] 0 1).2 0
      (by decide) (by decide)⟩

theorem init_weight_bias_seed_determinism_witness :
    (Layer.init_weight_bias (fun x => x) seedDraw seedLayer 7 1).weights_
      = (Layer.init_weight_bias (fun x => x) seedDraw seedLayer 7 2).weights_ :=
  (init_weight_bias_seed_determinism (fun x => x) seedDraw seedLayer seedLayer 7 1 2
    [0] [0] [0] [0] (by decide) rfl rfl rfl rfl rfl rfl).1
